import Mathlib

/-!
# Shallow embedding of the hackernews-clone transactional core

This file embeds the server routes of the repository
(`src/server/routes/posts.ts`, `src/server/routes/comments.ts`, the
drizzle schema `src/server/db/schema/comments.ts` and the zod schemas in
`src/shared/types.ts`) as pure Lean functions over an explicit database
state, and proves the frozen claims about them.

Modelling decisions:
* The relational store is a record of lists of rows, kept in insertion
  order (postgres `serial` ids are modelled by explicit `next…Id`
  counters, `defaultNow()` timestamps by a `now` tick).
* A `db.transaction` body is a pure function returning
  `Except ApiError (DB × result)`: an exception thrown inside the
  transaction aborts it, so the erroneous outcome carries no new state —
  this models rollback.
* SQL `UPDATE … WHERE` is `updateWhere` (update every matching row),
  `… RETURNING` + destructuring `[x]` is `filter`/`head?`.
* SQL `ORDER BY key` does **not** specify the relative order of rows with
  equal keys.  Every listing function therefore takes an explicit
  `sorter : List row → List row` parameter standing for the order the
  database actually produced; `ValidSorter` says the sorter is a
  permutation producing a row sequence that is sorted on the requested
  key.  Theorems quantify over all valid sorters.
* The schema files `post.ts`, `upvotes.ts` and the auth schema are not
  part of the given sources; their column defaults (`points 0`,
  `commentCount 0`) and the one-vote-per-(entity,user) uniqueness are
  modelled from the spec where marked.
-/

deriving instance DecidableEq for Except

namespace HN

/-- Sort key selector, `sortBy ∈ {points, recent}` (`src/shared/types.ts`). -/
inductive SortBy where
  | points
  | recent
deriving Repr, DecidableEq

/-- Sort direction, `order ∈ {asc, desc}` (`src/shared/types.ts`). -/
inductive Order where
  | asc
  | desc
deriving Repr, DecidableEq

/-- `UserIdentity{id, username}` supplied by the identity gate. -/
structure UserIdentity where
  id : String
  username : String
deriving Repr, DecidableEq

/-- A row of `postsTable`.  The schema file is outside the given sources;
columns are those referenced by `src/server/routes/posts.ts`, with the
defaults `points = 0`, `commentCount = 0` modelled from the spec (§3). -/
structure PostRow where
  id : Nat
  title : String
  url : Option String
  content : Option String
  points : Int
  commentCount : Int
  createdAt : Nat
  userId : String
deriving Repr, DecidableEq

/-- A row of `commentsTable` (`src/server/db/schema/comments.ts`). -/
structure CommentRow where
  id : Nat
  userId : String
  postId : Nat
  parentCommentId : Option Nat
  content : String
  depth : Int
  commentCount : Int
  points : Int
  createdAt : Nat
deriving Repr, DecidableEq

/-- A row of `postUpvotesTable`: `(id, postId, userId)`.  The schema file
is outside the given sources; the shape is the one used by
`src/server/routes/posts.ts` (`.postId`, `.userId`, delete by `.id`). -/
structure PostUpvoteRow where
  id : Nat
  postId : Nat
  userId : String
deriving Repr, DecidableEq

/-- A row of `commentUpvotesTable`: `(id, commentId, userId)`, as used by
`src/server/routes/comments.ts`. -/
structure CommentUpvoteRow where
  id : Nat
  commentId : Nat
  userId : String
deriving Repr, DecidableEq

/-- The relational store: lists of rows in insertion order, plus the
`serial` id counters and the current timestamp tick. -/
structure DB where
  users : List UserIdentity
  posts : List PostRow
  comments : List CommentRow
  postUpvotes : List PostUpvoteRow
  commentUpvotes : List CommentUpvoteRow
  nextPostId : Nat
  nextCommentId : Nat
  nextPostUpvoteId : Nat
  nextCommentUpvoteId : Nat
  now : Nat
deriving Repr, DecidableEq

/-- Error taxonomy surfaced by the routes: `HTTPException(404, …)` and
zod validation failures. -/
inductive ApiError where
  | notFound (message : String)
  | validation (message : String)
deriving Repr, DecidableEq

/-- `UPDATE … SET g WHERE p`: update every matching row in place. -/
def updateWhere (p : α → Bool) (g : α → α) (l : List α) : List α :=
  l.map fun x => if p x then g x else x

/-- `SELECT … WHERE p … LIMIT 1` + `const [x] = …`: first matching row. -/
def firstWhere (p : α → Bool) (l : List α) : Option α :=
  (l.filter p).head?

/-- `countDistinct(idOf)` over the rows matching `p`. -/
def countDistinctIds (idOf : α → Nat) (p : α → Bool) (l : List α) : Nat :=
  ((l.filter p).map idOf).dedup.length

/-- JavaScript truthiness of an optional string: `undefined`/`null` and
`""` are falsy (the `data.url || data.content` refine in
`src/shared/types.ts`). -/
def truthy : Option String → Bool
  | none => false
  | some s => s ≠ ""

/-- `Math.ceil(count / limit)` on naturals (for `limit > 0`). -/
def jsCeilDiv (count limit : Nat) : Nat :=
  (count + limit - 1) / limit

/-- `(page - 1) * limit`, the offset each route computes inline. -/
def jsOffset (page limit : Nat) : Nat :=
  (page - 1) * limit

/-! ## Mutating routes (each `db.transaction` is one pure step) -/

/-- Response of `POST /posts/:id/upvote`: `{count, isUpvoted}`. -/
structure PostUpvoteResult where
  count : Int
  isUpvoted : Bool
deriving Repr, DecidableEq

/-- `postRouter POST /:id/upvote` (`src/server/routes/posts.ts`):
look up the caller's existing vote, apply `points + pointChange`,
404 if the post is missing, then delete or insert the vote row. -/
def togglePostUpvote (s : DB) (id : Nat) (user : UserIdentity) :
    Except ApiError (DB × PostUpvoteResult) := do
  let existingUpvote :=
    firstWhere (fun v => v.postId == id && v.userId == user.id) s.postUpvotes
  let pointChange : Int := if existingUpvote.isSome then -1 else 1
  let posts' := updateWhere (fun p => p.id == id)
    (fun p => { p with points := p.points + pointChange }) s.posts
  match firstWhere (fun p => p.id == id) posts' with
  | none => throw (.notFound "Post not found")
  | some updated =>
    let upvotes' :=
      match existingUpvote with
      | some v => s.postUpvotes.filter (fun w => !(w.id == v.id))
      | none => s.postUpvotes ++
          [({ id := s.nextPostUpvoteId, postId := id, userId := user.id } : PostUpvoteRow)]
    let s' := { s with
      posts := posts'
      postUpvotes := upvotes'
      nextPostUpvoteId :=
        if existingUpvote.isSome then s.nextPostUpvoteId
        else s.nextPostUpvoteId + 1 }
    return (s', { count := updated.points, isUpvoted := pointChange > 0 })

/-- Response of `POST /comments/:id/upvote`: `{count, commentUpvotes}`. -/
structure CommentUpvoteResult where
  count : Int
  commentUpvotes : List String
deriving Repr, DecidableEq

/-- `commentRouter POST /:id/upvote` (`src/server/routes/comments.ts`):
same toggle shape as the post route, on `commentsTable` /
`commentUpvotesTable`; the response carries `[{userId}]` when the toggle
granted a vote and `[]` when it retracted one. -/
def toggleCommentUpvote (s : DB) (id : Nat) (user : UserIdentity) :
    Except ApiError (DB × CommentUpvoteResult) := do
  let existingUpvote :=
    firstWhere (fun v => v.commentId == id && v.userId == user.id)
      s.commentUpvotes
  let pointChange : Int := if existingUpvote.isSome then -1 else 1
  let comments' := updateWhere (fun c => c.id == id)
    (fun c => { c with points := c.points + pointChange }) s.comments
  match firstWhere (fun c => c.id == id) comments' with
  | none => throw (.notFound "Post not found")
  | some updated =>
    let upvotes' :=
      match existingUpvote with
      | some v => s.commentUpvotes.filter (fun w => !(w.id == v.id))
      | none => s.commentUpvotes ++
          [({ id := s.nextCommentUpvoteId, commentId := id, userId := user.id } : CommentUpvoteRow)]
    let s' := { s with
      comments := comments'
      commentUpvotes := upvotes'
      nextCommentUpvoteId :=
        if existingUpvote.isSome then s.nextCommentUpvoteId
        else s.nextCommentUpvoteId + 1 }
    return (s', { count := updated.points,
                  commentUpvotes := if pointChange == 1 then [user.id] else [] })

/-- A comment as projected by the listing queries: the row joined with
its author and the viewer-vote projection (`commentUpVotes`, a list of
user ids of length at most 1).  The public `Comment` shape is recursive,
but the queries materialize at most one level of children, so a child
never carries children of its own — this type is that leaf shape. -/
structure CommentProj where
  row : CommentRow
  author : Option UserIdentity
  commentUpVotes : List String
deriving Repr, DecidableEq

/-- The `data` object returned by both comment-creation routes: the
inserted row plus the literal `childComments: []`, `commentUpVotes: []`
and the author taken from the session user. -/
structure CreatedComment where
  id : Nat
  userId : String
  postId : Nat
  content : String
  points : Int
  depth : Int
  commentCount : Int
  parentCommentId : Option Nat
  createdAt : Nat
  childComments : List CommentProj
  commentUpVotes : List String
  author : UserIdentity
deriving Repr, DecidableEq

/-- `createCommentSchema` (`src/shared/types.ts` picking the
`insertCommentSchema` refinement in `src/server/db/schema/comments.ts`):
content must be at least 3 characters. -/
def validComment (content : String) : Bool :=
  content.length ≥ 3

/-- `commentRouter POST /:id` (`src/server/routes/comments.ts`): create a
reply under parent comment `id`.  Load the parent (404 if missing), take
`postId` from the parent, increment the parent's and the post's
`commentCount` by 1 (404 — rolling the transaction back — if the post
update matched no row), then insert the reply with
`depth = parent.depth + 1`. -/
def createReply (s : DB) (id : Nat) (user : UserIdentity) (content : String) :
    Except ApiError (DB × CreatedComment) := do
  if !validComment content then
    throw (.validation "Content must be at least 3 characters")
  match firstWhere (fun c => c.id == id) s.comments with
  | none => throw (.notFound "Comment not found")
  | some parentComment =>
    let postId := parentComment.postId
    let comments1 := updateWhere (fun c => c.id == id)
      (fun c => { c with commentCount := c.commentCount + 1 }) s.comments
    let updateParentComment := firstWhere (fun c => c.id == id) comments1
    let posts1 := updateWhere (fun p => p.id == postId)
      (fun p => { p with commentCount := p.commentCount + 1 }) s.posts
    let updatedPost := firstWhere (fun p => p.id == postId) posts1
    if updateParentComment.isNone || updatedPost.isNone then
      throw (.notFound "Comment not found")
    let row : CommentRow := {
      id := s.nextCommentId
      userId := user.id
      postId := postId
      parentCommentId := some parentComment.id
      content := content
      depth := parentComment.depth + 1
      commentCount := 0
      points := 0
      createdAt := s.now }
    let s' := { s with
      comments := comments1 ++ [row]
      posts := posts1
      nextCommentId := s.nextCommentId + 1
      now := s.now + 1 }
    return (s', {
      id := row.id, userId := row.userId, postId := row.postId
      content := row.content, points := row.points, depth := row.depth
      commentCount := row.commentCount
      parentCommentId := row.parentCommentId
      createdAt := row.createdAt
      childComments := [], commentUpVotes := []
      author := { username := user.username, id := user.id } })

/-- `postRouter POST /:id/comments` (`src/server/routes/posts.ts`):
create a top-level comment on post `id`.  Increment the post's
`commentCount` (404 if no row matched), then insert the comment with the
schema defaults `depth = 0`, `parentCommentId = null`. -/
def createTopLevelComment (s : DB) (id : Nat) (user : UserIdentity)
    (content : String) : Except ApiError (DB × CreatedComment) := do
  if !validComment content then
    throw (.validation "Content must be at least 3 characters")
  let posts1 := updateWhere (fun p => p.id == id)
    (fun p => { p with commentCount := p.commentCount + 1 }) s.posts
  match firstWhere (fun p => p.id == id) posts1 with
  | none => throw (.notFound "Post not found")
  | some _ =>
    let row : CommentRow := {
      id := s.nextCommentId
      userId := user.id
      postId := id
      parentCommentId := none
      content := content
      depth := 0
      commentCount := 0
      points := 0
      createdAt := s.now }
    let s' := { s with
      comments := s.comments ++ [row]
      posts := posts1
      nextCommentId := s.nextCommentId + 1
      now := s.now + 1 }
    return (s', {
      id := row.id, userId := row.userId, postId := row.postId
      content := row.content, points := row.points, depth := row.depth
      commentCount := row.commentCount
      parentCommentId := row.parentCommentId
      createdAt := row.createdAt
      childComments := [], commentUpVotes := []
      author := { username := user.username, id := user.id } })

/-- `createPostSchema` (`src/shared/types.ts`): the refine
`data.url || data.content` — JS truthiness, so an empty string counts
like an absent value. -/
def validPost (url content : Option String) : Bool :=
  truthy url || truthy content

/-- `postRouter POST /` (`src/server/routes/posts.ts`): validate with
`createPostSchema`, insert the post (defaults `points = 0`,
`commentCount = 0`, modelled from the spec, §3) and return its id. -/
def createPost (s : DB) (user : UserIdentity) (title : String)
    (url content : Option String) : Except ApiError (DB × Nat) := do
  if !validPost url content then
    throw (.validation "URL or content is required")
  let row : PostRow := {
    id := s.nextPostId
    title := title
    url := url
    content := content
    points := 0
    commentCount := 0
    createdAt := s.now
    userId := user.id }
  let s' := { s with
    posts := s.posts ++ [row]
    nextPostId := s.nextPostId + 1
    now := s.now + 1 }
  return (s', row.id)

/-! ## Ordering model

The routes emit `ORDER BY points` or `ORDER BY created_at` (asc or desc)
with no secondary sort key, so the relative order of rows with equal keys
is not specified by the SQL they issue.  Listings therefore take a
`sorter` argument standing for the ordering the database produced;
`ValidSorter` is exactly what `ORDER BY` guarantees. -/

/-- `sortByColumn` for comments: `points` or `createdAt`. -/
def commentKey (sb : SortBy) (c : CommentRow) : Int :=
  match sb with
  | .points => c.points
  | .recent => (c.createdAt : Int)

/-- `sortByColumn` for posts: `points` or `createdAt`. -/
def postKey (sb : SortBy) (p : PostRow) : Int :=
  match sb with
  | .points => p.points
  | .recent => (p.createdAt : Int)

/-- Comparison direction of `ORDER BY` per `order`. -/
def keyLe (o : Order) (x y : Int) : Prop :=
  match o with
  | .asc => x ≤ y
  | .desc => y ≤ x

instance (o : Order) (x y : Int) : Decidable (keyLe o x y) := by
  unfold keyLe; cases o <;> infer_instance

/-- The list is sorted on `key` in direction `o`. -/
def sortedByKey (key : α → Int) (o : Order) (l : List α) : Prop :=
  List.Pairwise (fun a b => keyLe o (key a) (key b)) l

/-- What `ORDER BY` guarantees and nothing more: the output is a
permutation of the input that is sorted on the requested key.  Ties may
come back in any order. -/
def ValidSorter (key : α → Int) (o : Order) (f : List α → List α) : Prop :=
  ∀ l : List α, (f l).Perm l ∧ sortedByKey key o (f l)

/-- One ordering the database may produce: a stable insertion sort. -/
def dbSort (key : α → Int) (o : Order) (l : List α) : List α :=
  List.insertionSort (fun a b => keyLe o (key a) (key b)) l

/-- Flip a sort direction. -/
def flipOrder : Order → Order
  | .asc => .desc
  | .desc => .asc

/-- Another ordering the database may produce: sort in the opposite
direction, then reverse.  Sorted on the same key, but rows with equal
keys come back in reverse insertion order. -/
def dbSortRev (key : α → Int) (o : Order) (l : List α) : List α :=
  (dbSort key (flipOrder o) l).reverse

/-! ## Read routes -/

/-- Pagination query (`paginationSchema` in `src/shared/types.ts`,
defaults `limit 10, page 1, sortBy points, order desc`). -/
structure PageQuery where
  limit : Nat := 10
  page : Nat := 1
  sortBy : SortBy := .points
  order : Order := .desc
deriving Repr, DecidableEq

/-- The `pagination` object of a paginated response. -/
structure PageInfo where
  page : Nat
  totalPages : Nat
deriving Repr, DecidableEq

/-- The `author` relation join: first user whose id matches. -/
def authorOf (s : DB) (userId : String) : Option UserIdentity :=
  firstWhere (fun u => u.id == userId) s.users

/-- `user?.id ?? ""`: the anonymous viewer becomes the empty-string
sentinel in the vote-projection join. -/
def viewerId : Option UserIdentity → String
  | some u => u.id
  | none => ""

/-- The `commentUpVotes` projection of the comment listings: votes on
this comment by `user?.id ?? ""`, `limit 1`, projected to `userId`. -/
def viewerVotes (s : DB) (user : Option UserIdentity) (commentId : Nat) :
    List String :=
  ((s.commentUpvotes.filter
      (fun v => v.commentId == commentId && v.userId == viewerId user)).take 1
    ).map (·.userId)

/-- Projection of one comment row with author and viewer-vote state. -/
def projComment (s : DB) (user : Option UserIdentity) (c : CommentRow) :
    CommentProj :=
  { row := c
    author := authorOf s c.userId
    commentUpVotes := viewerVotes s user c.id }

/-- Paginated response of `GET /comments/:id/comments`. -/
structure RepliesResp where
  data : List CommentProj
  pagination : PageInfo
deriving Repr, DecidableEq

/-- `commentRouter GET /:id/comments` (`src/server/routes/comments.ts`):
page through the direct replies of comment `id`.  There is no existence
check on `id`; the route always succeeds. -/
def listReplies (sorter : List CommentRow → List CommentRow) (s : DB)
    (id : Nat) (user : Option UserIdentity) (q : PageQuery) :
    Except ApiError RepliesResp := do
  let offset := jsOffset q.page q.limit
  let isReply := fun c : CommentRow => c.parentCommentId == some id
  let count := countDistinctIds (·.id) isReply s.comments
  let rows := sorter (s.comments.filter isReply)
  let pageRows := (rows.drop offset).take q.limit
  return { data := pageRows.map (projComment s user)
           pagination := { page := q.page
                           totalPages := jsCeilDiv count q.limit } }

/-- A top-level comment as returned by `GET /posts/:id/comments`: the
leaf projection plus a (capped) list of direct children. -/
structure TopCommentProj where
  row : CommentRow
  author : Option UserIdentity
  commentUpVotes : List String
  childComments : List CommentProj
deriving Repr, DecidableEq

/-- Paginated response of `GET /posts/:id/comments`. -/
structure PostCommentsResp where
  data : List TopCommentProj
  pagination : PageInfo
deriving Repr, DecidableEq

/-- `childComments: { limit: includeChildren ? 2 : 0, … }`. -/
def childrenCap (includeChildren : Bool) : Nat :=
  if includeChildren then 2 else 0

/-- Projection of one top-level comment: author, viewer-vote state, and
up to `childrenCap` direct children in the same sort order, each child
carrying the same author/viewer-vote projection. -/
def projTopComment (sorter : List CommentRow → List CommentRow) (s : DB)
    (user : Option UserIdentity) (includeChildren : Bool) (c : CommentRow) :
    TopCommentProj :=
  { row := c
    author := authorOf s c.userId
    commentUpVotes := viewerVotes s user c.id
    childComments :=
      ((sorter (s.comments.filter
          (fun d => d.parentCommentId == some c.id))).take
        (childrenCap includeChildren)).map (projComment s user) }

/-- `postRouter GET /:id/comments` (`src/server/routes/posts.ts`):
404 if the post does not exist, then page through the top-level comments
(`postId = id` and `parentCommentId IS NULL`), each optionally with up to
2 children. -/
def listPostComments (sorter : List CommentRow → List CommentRow) (s : DB)
    (id : Nat) (user : Option UserIdentity) (q : PageQuery)
    (includeChildren : Bool) : Except ApiError PostCommentsResp := do
  let offset := jsOffset q.page q.limit
  match firstWhere (fun p => p.id == id) s.posts with
  | none => throw (.notFound "Post not found")
  | some _ =>
    let isTop := fun c : CommentRow =>
      c.postId == id && c.parentCommentId.isNone
    let count := countDistinctIds (·.id) isTop s.comments
    let rows := sorter (s.comments.filter isTop)
    let pageRows := (rows.drop offset).take q.limit
    return { data := pageRows.map (projTopComment sorter s user includeChildren)
             pagination := { page := q.page
                             totalPages := jsCeilDiv count q.limit } }

/-- A post as returned by `GET /posts` and `GET /posts/:id`: the row
joined with its author and the viewer's upvote state. -/
structure PostProj where
  row : PostRow
  author : Option UserIdentity
  isUpvoted : Bool
deriving Repr, DecidableEq

/-- `isUpvoted`: for a logged-in viewer, the outer join against
`postUpvotesTable` on `(postId, userId)` followed by
`CASE WHEN userId IS NOT NULL` — i.e. such a vote row exists (the spec's
uniqueness of `(post, user)` votes makes the join at most one-to-one);
for an anonymous viewer the query selects the literal `false` and
performs no join at all. -/
def postIsUpvoted (s : DB) (user : Option UserIdentity) (postId : Nat) :
    Bool :=
  match user with
  | none => false
  | some u => s.postUpvotes.any (fun v => v.postId == postId && v.userId == u.id)

/-- Projection of one post row for the viewer. -/
def projPost (s : DB) (user : Option UserIdentity) (p : PostRow) : PostProj :=
  { row := p
    author := authorOf s p.userId
    isUpvoted := postIsUpvoted s user p.id }

/-- Paginated response of `GET /posts`. -/
structure PostsResp where
  data : List PostProj
  pagination : PageInfo
deriving Repr, DecidableEq

/-- `author ? eq(postsTable.userId, author) : undefined` and
`site ? eq(postsTable.url, site) : undefined` combined with `and`:
each filter applies only when the parameter is truthy. -/
def postMatches (author site : Option String) (p : PostRow) : Bool :=
  (!truthy author || p.userId == author.getD "") &&
  (!truthy site || p.url == some (site.getD ""))

/-- `postRouter GET /` (`src/server/routes/posts.ts`): count the matching
posts, then return one sorted page with author join and per-viewer
`isUpvoted` projection.  Never fails. -/
def listPosts (sorter : List PostRow → List PostRow) (s : DB)
    (user : Option UserIdentity) (q : PageQuery)
    (author site : Option String) : Except ApiError PostsResp := do
  let offset := jsOffset q.page q.limit
  let count := countDistinctIds (·.id) (postMatches author site) s.posts
  let rows := sorter (s.posts.filter (postMatches author site))
  let pageRows := (rows.drop offset).take q.limit
  return { data := pageRows.map (projPost s user)
           pagination := { page := q.page
                           totalPages := jsCeilDiv count q.limit } }

/-- `postRouter GET /:id` (`src/server/routes/posts.ts`): the single post
with author and viewer upvote state, 404 if missing. -/
def getPost (s : DB) (id : Nat) (user : Option UserIdentity) :
    Except ApiError PostProj := do
  match firstWhere (fun p => p.id == id) s.posts with
  | none => throw (.notFound "Post not found")
  | some p => return projPost s user p

/-! ## Well-formed states and the spec-side pagination function -/

/-- States reachable through the API: `serial` primary keys are distinct
and below their counters, at most one vote per `(entity, user)` (spec §3:
the vote pair is unique; the `upvotes` schema file is not among the given
sources), and every `parentCommentId` refers to an existing comment. -/
def Wf (s : DB) : Prop :=
  (s.comments.map (·.id)).Nodup ∧
  (s.posts.map (·.id)).Nodup ∧
  (s.commentUpvotes.map (·.id)).Nodup ∧
  (s.postUpvotes.map (·.id)).Nodup ∧
  (∀ v ∈ s.commentUpvotes, v.id < s.nextCommentUpvoteId) ∧
  (∀ v ∈ s.postUpvotes, v.id < s.nextPostUpvoteId) ∧
  (∀ c ∈ s.comments, c.id < s.nextCommentId) ∧
  (∀ p ∈ s.posts, p.id < s.nextPostId) ∧
  (s.commentUpvotes.map (fun v => (v.commentId, v.userId))).Nodup ∧
  (s.postUpvotes.map (fun v => (v.postId, v.userId))).Nodup ∧
  (∀ c ∈ s.comments,
    c.parentCommentId.all (fun p => s.comments.any (fun d => d.id == p)) = true)

instance (s : DB) : Decidable (Wf s) := by
  unfold Wf; infer_instance

/-- Modelled from the spec (§4.5), for comparison with the formulas the
routes inline: `Paginate(totalMatching, limit, page) -> {offset,
totalPages}` with `offset = (page-1)*limit` and
`totalPages = ceil(totalMatching/limit)`. -/
def paginateSpec (totalMatching limit page : Nat) : Nat × Nat :=
  ((page - 1) * limit, (totalMatching + limit - 1) / limit)

/-! ## State observations used by the theorems -/

/-- The comment row with the given id, if any. -/
def commentById (s : DB) (id : Nat) : Option CommentRow :=
  firstWhere (fun c => c.id == id) s.comments

/-- The post row with the given id, if any. -/
def postById (s : DB) (id : Nat) : Option PostRow :=
  firstWhere (fun p => p.id == id) s.posts

/-- A vote record `(commentId, userId)` exists. -/
def hasCommentVote (s : DB) (id : Nat) (uid : String) : Bool :=
  s.commentUpvotes.any (fun v => v.commentId == id && v.userId == uid)

/-- A vote record `(postId, userId)` exists. -/
def hasPostVote (s : DB) (id : Nat) (uid : String) : Bool :=
  s.postUpvotes.any (fun v => v.postId == id && v.userId == uid)

/-! ## Helper lemmas -/

theorem keyLe_total (o : Order) (x y : Int) : keyLe o x y ∨ keyLe o y x := by
  cases o <;> simp only [keyLe] <;> omega

theorem keyLe_trans (o : Order) {x y z : Int} (h1 : keyLe o x y)
    (h2 : keyLe o y z) : keyLe o x z := by
  cases o <;> simp only [keyLe] at * <;> omega

theorem keyLe_flip (o : Order) (x y : Int) :
    keyLe (flipOrder o) x y ↔ keyLe o y x := by
  cases o <;> simp [keyLe, flipOrder]

theorem dbSort_valid (key : α → Int) (o : Order) :
    ValidSorter key o (dbSort key o) := by
  intro l
  refine ⟨List.perm_insertionSort _ l, ?_⟩
  haveI : IsTotal α (fun a b => keyLe o (key a) (key b)) :=
    ⟨fun a b => keyLe_total o (key a) (key b)⟩
  haveI : IsTrans α (fun a b => keyLe o (key a) (key b)) :=
    ⟨fun _ _ _ h1 h2 => keyLe_trans o h1 h2⟩
  exact List.sorted_insertionSort _ l

theorem dbSortRev_valid (key : α → Int) (o : Order) :
    ValidSorter key o (dbSortRev key o) := by
  intro l
  obtain ⟨hp, hs⟩ := dbSort_valid key (flipOrder o) l
  refine ⟨(List.reverse_perm _).trans hp, ?_⟩
  unfold dbSortRev sortedByKey
  rw [List.pairwise_reverse]
  exact hs.imp fun h => (keyLe_flip o _ _).mp h

theorem firstWhere_eq_none {p : α → Bool} {l : List α} :
    firstWhere p l = none ↔ ∀ x ∈ l, p x = false := by
  simp [firstWhere, List.head?_eq_none_iff, List.filter_eq_nil_iff]

theorem firstWhere_mem {p : α → Bool} {l : List α} {x : α}
    (h : firstWhere p l = some x) : x ∈ l ∧ p x = true := by
  unfold firstWhere at h
  have hx := List.mem_of_mem_head? h
  exact ⟨List.mem_of_mem_filter hx, List.of_mem_filter hx⟩

theorem firstWhere_cons {p : α → Bool} {x : α} {xs : List α} :
    firstWhere p (x :: xs) = if p x then some x else firstWhere p xs := by
  unfold firstWhere
  rw [List.filter_cons]
  by_cases hx : p x = true
  · simp [hx]
  · simp only [Bool.not_eq_true] at hx
    simp [hx]

/-- With distinct ids, the one row with a given id is the first match. -/
theorem firstWhere_nodup_eq {idOf : α → Nat} {l : List α}
    (hnd : (l.map idOf).Nodup) {c : α} (hc : c ∈ l) :
    firstWhere (fun x => idOf x == idOf c) l = some c := by
  induction l with
  | nil => cases hc
  | cons x xs ih =>
    rw [List.map_cons, List.nodup_cons] at hnd
    rw [firstWhere_cons]
    by_cases hx : idOf x = idOf c
    · have hxc : x = c := by
        rcases List.mem_cons.mp hc with h | h
        · exact h.symm
        · exact absurd (hx ▸ List.mem_map_of_mem idOf h) hnd.1
      simp [hx, hxc]
    · have hcx : c ∈ xs := by
        rcases List.mem_cons.mp hc with h | h
        · exact absurd (h ▸ rfl) hx
        · exact h
      rw [if_neg (by simp [hx])]
      exact ih hnd.2 hcx


/-- Updating rows in a way that keeps a projection `f` fixed keeps the
projected list fixed. -/
theorem map_updateWhere (p : α → Bool) (g : α → α) (f : α → β)
    (hfg : ∀ x, p x = true → f (g x) = f x) (l : List α) :
    (updateWhere p g l).map f = l.map f := by
  unfold updateWhere
  rw [List.map_map]
  apply List.map_congr_left
  intro x _
  by_cases hx : p x = true
  · simp [hx, hfg x hx]
  · simp [Bool.not_eq_true] at hx
    simp [hx]

/-- Filtering on the updated predicate commutes with the update. -/
theorem filter_updateWhere (p : α → Bool) (g : α → α)
    (hg : ∀ x, p (g x) = p x) (l : List α) :
    (updateWhere p g l).filter p = (l.filter p).map g := by
  induction l with
  | nil => rfl
  | cons x xs ih =>
    unfold updateWhere at *
    by_cases hx : p x = true
    · simp only [List.map_cons, hx, if_true, List.filter_cons, hg x, hx,
        if_pos, ih]
    · simp only [Bool.not_eq_true] at hx
      simp only [List.map_cons, hx, Bool.false_eq_true, if_false,
        List.filter_cons, ih]

theorem firstWhere_updateWhere (p : α → Bool) (g : α → α)
    (hg : ∀ x, p (g x) = p x) (l : List α) :
    firstWhere p (updateWhere p g l) = (firstWhere p l).map g := by
  unfold firstWhere
  rw [filter_updateWhere p g hg, List.head?_map]

/-- Two successive updates whose effects cancel on matching rows leave
the list unchanged. -/
theorem updateWhere_cancel (p : α → Bool) (g h : α → α)
    (hph : ∀ x, p (h x) = p x) (hgh : ∀ x, p x = true → g (h x) = x)
    (l : List α) : updateWhere p g (updateWhere p h l) = l := by
  induction l with
  | nil => rfl
  | cons x xs ih =>
    unfold updateWhere at *
    by_cases hx : p x = true
    · simp only [List.map_cons, hx, if_true, hph x, hgh x hx, ih]
    · simp only [Bool.not_eq_true] at hx
      simp only [List.map_cons, hx, Bool.false_eq_true, if_false, ih]

theorem firstWhere_append_none {p : α → Bool} {l₁ l₂ : List α}
    (h : ∀ x ∈ l₁, p x = false) :
    firstWhere p (l₁ ++ l₂) = firstWhere p l₂ := by
  unfold firstWhere
  rw [List.filter_append, List.filter_eq_nil_iff.mpr (by simpa using h),
    List.nil_append]

theorem firstWhere_append_some {p : α → Bool} {l₁ l₂ : List α} {x : α}
    (h : firstWhere p l₁ = some x) :
    firstWhere p (l₁ ++ l₂) = some x := by
  unfold firstWhere at *
  rw [List.filter_append]
  cases hf : l₁.filter p with
  | nil => rw [hf] at h; cases h
  | cons y ys =>
    rw [hf] at h
    simp only [List.head?_cons] at h
    simpa using h

theorem jsCeilDiv_zero (limit : Nat) : jsCeilDiv 0 limit = 0 := by
  unfold jsCeilDiv
  cases limit with
  | zero => rfl
  | succ n => simpa using Nat.div_eq_of_lt (Nat.lt_succ_self n)

theorem any_firstWhere {p : α → Bool} {l : List α} (h : l.any p = true) :
    ∃ x, firstWhere p l = some x ∧ x ∈ l ∧ p x = true := by
  obtain ⟨x, hx, hpx⟩ := List.any_eq_true.mp h
  have hne : l.filter p ≠ [] := by
    intro hnil
    have := List.filter_eq_nil_iff.mp hnil x hx
    simp [hpx] at this
  cases hf : l.filter p with
  | nil => exact absurd hf hne
  | cons y ys =>
    refine ⟨y, ?_, ?_, ?_⟩
    · unfold firstWhere
      rw [hf, List.head?_cons]
    · exact List.mem_of_mem_filter (hf ▸ List.mem_cons_self y ys)
    · exact List.of_mem_filter (hf ▸ List.mem_cons_self y ys)

/-- Outcome of a comment-vote toggle when the caller has no vote yet:
grant — points go up by 1, a vote row is appended, the response reports
the upvote. -/
theorem toggleCommentUpvote_absent (s : DB) (id : Nat) (user : UserIdentity)
    (c : CommentRow) (hcid : commentById s id = some c)
    (hno : hasCommentVote s id user.id = false) :
    toggleCommentUpvote s id user = .ok
      ({ s with
          comments := updateWhere (fun d => d.id == id)
            (fun d => { d with points := d.points + 1 }) s.comments
          commentUpvotes := s.commentUpvotes ++
            [{ id := s.nextCommentUpvoteId, commentId := id
               userId := user.id }]
          nextCommentUpvoteId := s.nextCommentUpvoteId + 1 },
        { count := c.points + 1, commentUpvotes := [user.id] }) := by
  have hnov : firstWhere
      (fun v => v.commentId == id && v.userId == user.id)
      s.commentUpvotes = none := by
    rw [firstWhere_eq_none]
    intro v hv
    unfold hasCommentVote at hno
    have := List.any_eq_false.mp hno v hv
    simpa using this
  have hupd : firstWhere (fun d => d.id == id)
      (updateWhere (fun d => d.id == id)
        (fun d => { d with points := d.points + (1 : Int) }) s.comments) =
      some { c with points := c.points + 1 } := by
    rw [firstWhere_updateWhere (fun d => d.id == id)
      (fun d => { d with points := d.points + (1 : Int) })
      (fun x => rfl) s.comments]
    rw [show firstWhere (fun d => d.id == id) s.comments = some c from hcid]
    rfl
  simp [toggleCommentUpvote, hnov, hupd]
  rfl

/-- Outcome of a comment-vote toggle when the caller's vote `v` is the
first matching vote row: retract — points go down by 1, the row is
deleted, the response reports no upvote. -/
theorem toggleCommentUpvote_present (s : DB) (id : Nat) (user : UserIdentity)
    (c : CommentRow) (hcid : commentById s id = some c)
    (v : CommentUpvoteRow)
    (hv : firstWhere (fun w => w.commentId == id && w.userId == user.id)
      s.commentUpvotes = some v) :
    toggleCommentUpvote s id user = .ok
      ({ s with
          comments := updateWhere (fun d => d.id == id)
            (fun d => { d with points := d.points + -1 }) s.comments
          commentUpvotes :=
            s.commentUpvotes.filter (fun w => !(w.id == v.id)) },
        { count := c.points + -1, commentUpvotes := [] }) := by
  have hupd : firstWhere (fun d => d.id == id)
      (updateWhere (fun d => d.id == id)
        (fun d => { d with points := d.points + (-1 : Int) }) s.comments) =
      some { c with points := c.points + -1 } := by
    rw [firstWhere_updateWhere (fun d => d.id == id)
      (fun d => { d with points := d.points + (-1 : Int) })
      (fun x => rfl) s.comments]
    rw [show firstWhere (fun d => d.id == id) s.comments = some c from hcid]
    rfl
  simp [toggleCommentUpvote, hv, hupd]
  rfl

/-- Outcome of a post-vote toggle when the caller has no vote yet. -/
theorem togglePostUpvote_absent (s : DB) (id : Nat) (user : UserIdentity)
    (p : PostRow) (hpid : postById s id = some p)
    (hno : hasPostVote s id user.id = false) :
    togglePostUpvote s id user = .ok
      ({ s with
          posts := updateWhere (fun d => d.id == id)
            (fun d => { d with points := d.points + 1 }) s.posts
          postUpvotes := s.postUpvotes ++
            [({ id := s.nextPostUpvoteId, postId := id, userId := user.id } : PostUpvoteRow)]
          nextPostUpvoteId := s.nextPostUpvoteId + 1 },
        { count := p.points + 1, isUpvoted := true }) := by
  have hnov : firstWhere
      (fun v => v.postId == id && v.userId == user.id)
      s.postUpvotes = none := by
    rw [firstWhere_eq_none]
    intro v hv
    unfold hasPostVote at hno
    have := List.any_eq_false.mp hno v hv
    simpa using this
  have hupd : firstWhere (fun d => d.id == id)
      (updateWhere (fun d => d.id == id)
        (fun d => { d with points := d.points + (1 : Int) }) s.posts) =
      some { p with points := p.points + 1 } := by
    rw [firstWhere_updateWhere (fun d => d.id == id)
      (fun d => { d with points := d.points + (1 : Int) })
      (fun x => rfl) s.posts]
    rw [show firstWhere (fun d => d.id == id) s.posts = some p from hpid]
    rfl
  simp [togglePostUpvote, hnov, hupd]
  rfl

/-- Outcome of a post-vote toggle when the caller's vote `v` is the
first matching vote row. -/
theorem togglePostUpvote_present (s : DB) (id : Nat) (user : UserIdentity)
    (p : PostRow) (hpid : postById s id = some p)
    (v : PostUpvoteRow)
    (hv : firstWhere (fun w => w.postId == id && w.userId == user.id)
      s.postUpvotes = some v) :
    togglePostUpvote s id user = .ok
      ({ s with
          posts := updateWhere (fun d => d.id == id)
            (fun d => { d with points := d.points + -1 }) s.posts
          postUpvotes := s.postUpvotes.filter (fun w => !(w.id == v.id)) },
        { count := p.points + -1, isUpvoted := false }) := by
  have hupd : firstWhere (fun d => d.id == id)
      (updateWhere (fun d => d.id == id)
        (fun d => { d with points := d.points + (-1 : Int) }) s.posts) =
      some { p with points := p.points + -1 } := by
    rw [firstWhere_updateWhere (fun d => d.id == id)
      (fun d => { d with points := d.points + (-1 : Int) })
      (fun x => rfl) s.posts]
    rw [show firstWhere (fun d => d.id == id) s.posts = some p from hpid]
    rfl
  simp [togglePostUpvote, hv, hupd]
  rfl

/-- Looking up a comment after a points update of the same id. -/
theorem commentById_update_points (δ : Int) (id : Nat) (s : DB)
    {c : CommentRow} (hcid : commentById s id = some c) :
    firstWhere (fun d => d.id == id)
      (updateWhere (fun d => d.id == id)
        (fun d => { d with points := d.points + δ }) s.comments) =
      some { c with points := c.points + δ } := by
  rw [firstWhere_updateWhere (fun d => d.id == id)
    (fun d => { d with points := d.points + δ }) (fun x => rfl) s.comments]
  rw [show firstWhere (fun d => d.id == id) s.comments = some c from hcid]
  rfl

/-- Looking up a post after a points update of the same id. -/
theorem postById_update_points (δ : Int) (id : Nat) (s : DB)
    {p : PostRow} (hpid : postById s id = some p) :
    firstWhere (fun d => d.id == id)
      (updateWhere (fun d => d.id == id)
        (fun d => { d with points := d.points + δ }) s.posts) =
      some { p with points := p.points + δ } := by
  rw [firstWhere_updateWhere (fun d => d.id == id)
    (fun d => { d with points := d.points + δ }) (fun x => rfl) s.posts]
  rw [show firstWhere (fun d => d.id == id) s.posts = some p from hpid]
  rfl

theorem comment_points_cancel_up (id : Nat) (l : List CommentRow) :
    updateWhere (fun d => d.id == id)
      (fun d => { d with points := d.points + -1 })
      (updateWhere (fun d => d.id == id)
        (fun d => { d with points := d.points + 1 }) l) = l := by
  apply updateWhere_cancel
  · exact fun x => rfl
  · intro x _
    cases x
    simp

theorem comment_points_cancel_down (id : Nat) (l : List CommentRow) :
    updateWhere (fun d => d.id == id)
      (fun d => { d with points := d.points + 1 })
      (updateWhere (fun d => d.id == id)
        (fun d => { d with points := d.points + -1 }) l) = l := by
  apply updateWhere_cancel
  · exact fun x => rfl
  · intro x _
    cases x
    simp

theorem post_points_cancel_up (id : Nat) (l : List PostRow) :
    updateWhere (fun d => d.id == id)
      (fun d => { d with points := d.points + -1 })
      (updateWhere (fun d => d.id == id)
        (fun d => { d with points := d.points + 1 }) l) = l := by
  apply updateWhere_cancel
  · exact fun x => rfl
  · intro x _
    cases x
    simp

theorem post_points_cancel_down (id : Nat) (l : List PostRow) :
    updateWhere (fun d => d.id == id)
      (fun d => { d with points := d.points + 1 })
      (updateWhere (fun d => d.id == id)
        (fun d => { d with points := d.points + -1 }) l) = l := by
  apply updateWhere_cancel
  · exact fun x => rfl
  · intro x _
    cases x
    simp

/-- Members of a list with nodup image are identified by their image. -/
theorem nodup_map_mem_inj {f : α → β} {l : List α}
    (h : (l.map f).Nodup) {x y : α} (hx : x ∈ l) (hy : y ∈ l)
    (hf : f x = f y) : x = y := by
  induction l with
  | nil => cases hx
  | cons a as ih =>
    rw [List.map_cons, List.nodup_cons] at h
    rcases List.mem_cons.mp hx with rfl | hx2
    · rcases List.mem_cons.mp hy with rfl | hy2
      · rfl
      · exact absurd (hf ▸ List.mem_map_of_mem f hy2) h.1
    · rcases List.mem_cons.mp hy with rfl | hy2
      · exact absurd (hf ▸ List.mem_map_of_mem f hx2) h.1
      · exact ih h.2 hx2 hy2

/-- Applying an operation's outcome to the pre-state: a successful
transaction commits its new state, a failed one rolls back. -/
def applyDB (s : DB) : Except ApiError (DB × α) → DB
  | .ok (s', _) => s'
  | .error _ => s

/-! ## Claim theorems -/

/-- Witness state for C4: one post, one root comment, 23 replies. -/
def c4db : DB :=
  { users := [⟨"u1", "alice"⟩]
    posts := [⟨1, "t", none, some "hi", 0, 24, 0, "u1"⟩]
    comments :=
      ⟨1, "u1", 1, none, "root", 0, 23, 0, 0⟩ ::
      (List.range 23).map (fun i =>
        ⟨i + 2, "u1", 1, some 1, "rep", 1, 0, 0, i + 1⟩)
    postUpvotes := []
    commentUpvotes := []
    nextPostId := 2
    nextCommentId := 25
    nextPostUpvoteId := 1
    nextCommentUpvoteId := 1
    now := 30 }

/-- C4: for every listing request (posts, top-level comments of a post,
or replies of a comment) with `limit > 0` and `page ≥ 1`, the returned
`totalPages` is `ceil(totalMatching / limit)` and the page window starts
at offset `(page−1)×limit`, the identical `paginateSpec` formula in all
three listing modes; a scope of 23 rows with `limit = 10` gives
`totalPages = 3`, and page 3 starts at offset 20 and holds 3 items. -/
theorem c4_shared_pagination
    (s : DB) (user : Option UserIdentity) (q : PageQuery)
    (author site : Option String) (pid cid : Nat) (includeChildren : Bool)
    (csort : List CommentRow → List CommentRow)
    (psort : List PostRow → List PostRow)
    (hcs : ValidSorter (commentKey q.sortBy) q.order csort)
    (hps : ValidSorter (postKey q.sortBy) q.order psort)
    (hlim : 0 < q.limit) (hpage : 1 ≤ q.page) :
    (listPosts psort s user q author site = .ok
      { data := (((psort (s.posts.filter (postMatches author site))).drop
            ((paginateSpec
              (countDistinctIds (·.id) (postMatches author site) s.posts)
              q.limit q.page).1)).take q.limit).map (projPost s user),
        pagination := {
          page := q.page,
          totalPages := (paginateSpec
            (countDistinctIds (·.id) (postMatches author site) s.posts)
            q.limit q.page).2 } }) ∧
    (listReplies csort s cid user q = .ok
      { data := (((csort (s.comments.filter
              (fun c => c.parentCommentId == some cid))).drop
            ((paginateSpec
              (countDistinctIds (·.id)
                (fun c => c.parentCommentId == some cid) s.comments)
              q.limit q.page).1)).take q.limit).map (projComment s user),
        pagination := {
          page := q.page,
          totalPages := (paginateSpec
            (countDistinctIds (·.id)
              (fun c => c.parentCommentId == some cid) s.comments)
            q.limit q.page).2 } }) ∧
    (∀ r, listPostComments csort s pid user q includeChildren = .ok r →
      r.pagination = {
        page := q.page,
        totalPages := (paginateSpec
          (countDistinctIds (·.id)
            (fun c => c.postId == pid && c.parentCommentId.isNone) s.comments)
          q.limit q.page).2 } ∧
      r.data = (((csort (s.comments.filter
            (fun c => c.postId == pid && c.parentCommentId.isNone))).drop
          ((paginateSpec
            (countDistinctIds (·.id)
              (fun c => c.postId == pid && c.parentCommentId.isNone)
              s.comments)
            q.limit q.page).1)).take q.limit).map
        (projTopComment csort s user includeChildren)) ∧
    (∀ r, listReplies csort s cid user q = .ok r →
      r.data.length = min q.limit
        ((s.comments.filter (fun c => c.parentCommentId == some cid)).length -
          jsOffset q.page q.limit)) ∧
    jsCeilDiv 23 10 = 3 ∧ jsOffset 3 10 = 20 ∧ min 10 (23 - jsOffset 3 10) = 3 := by
  refine ⟨rfl, rfl, ?_, ?_, rfl, rfl, rfl⟩
  · intro r hr
    unfold listPostComments at hr
    cases hm : firstWhere (fun p => p.id == pid) s.posts with
    | none => rw [hm] at hr; exact absurd hr (by simp)
    | some p0 =>
      rw [hm] at hr
      simp only [pure, Except.pure, Except.ok.injEq] at hr
      subst hr
      exact ⟨rfl, rfl⟩
  · intro r hr
    simp only [listReplies, pure, Except.pure, Except.ok.injEq] at hr
    subst hr
    simp only [List.length_map, List.length_take, List.length_drop]
    rw [(hcs (s.comments.filter
      (fun c => c.parentCommentId == some cid))).1.length_eq]

/-- Witness for C4 on `c4db`: page 3 of the 23 replies of comment 1 has
3 items and `totalPages = 3`. -/
theorem c4_witness :
    ValidSorter (commentKey SortBy.points) Order.desc
      (dbSort (commentKey SortBy.points) Order.desc) ∧
    ValidSorter (postKey SortBy.points) Order.desc
      (dbSort (postKey SortBy.points) Order.desc) ∧
    (0 : Nat) < 10 ∧ (1 : Nat) ≤ 3 ∧
    ∃ r, listReplies (dbSort (commentKey SortBy.points) Order.desc) c4db 1
        none { limit := 10, page := 3 } = .ok r ∧
      r.data.length = 3 ∧ r.pagination.totalPages = 3 := by
  have h := c4_shared_pagination c4db none { limit := 10, page := 3 }
    none none 1 1 false
    (dbSort (commentKey SortBy.points) Order.desc)
    (dbSort (postKey SortBy.points) Order.desc)
    (dbSort_valid _ _) (dbSort_valid _ _) (by decide) (by decide)
  obtain ⟨_, h2, _, h4, _⟩ := h
  have hlen := h4 _ h2
  refine ⟨dbSort_valid _ _, dbSort_valid _ _, by decide, by decide,
    ⟨_, h2, ?_, ?_⟩⟩
  · rw [hlen]
    decide
  · decide

/-- The empty database. -/
def emptyDB : DB :=
  { users := [], posts := [], comments := [], postUpvotes := []
    commentUpvotes := [], nextPostId := 1, nextCommentId := 1
    nextPostUpvoteId := 1, nextCommentUpvoteId := 1, now := 0 }

/-- C6 counterexample: the claim says creation succeeds "when at least
one of url or content is supplied", but a supplied-but-empty content
(`url = null`, `content = ""`) is rejected: the zod refine tests JS
truthiness, and `""` is falsy. -/
theorem c6_counterexample :
    createPost emptyDB ⟨"u1", "alice"⟩ "title" none (some "") =
      .error (.validation "URL or content is required") := by decide

/-- C6 (amended): CreatePost fails with ValidationError when url and
content are both JS-falsy (absent or empty strings), and succeeds —
inserting a post with `points 0` and `commentCount 0` and returning its
id — when at least one of url or content is a non-empty string; in
particular a post with non-empty content only and `url = null` is
accepted. -/
theorem c6_create_post_validation (s : DB) (user : UserIdentity)
    (title : String) (url content : Option String) (hwf : Wf s) :
    (truthy url = false → truthy content = false →
      createPost s user title url content =
        .error (.validation "URL or content is required")) ∧
    (truthy url = true ∨ truthy content = true →
      ∃ s', createPost s user title url content = .ok (s', s.nextPostId) ∧
        postById s' s.nextPostId = some
          { id := s.nextPostId, title := title, url := url
            content := content, points := 0, commentCount := 0
            createdAt := s.now, userId := user.id }) := by
  constructor
  · intro hu hc
    have hv : validPost url content = false := by
      simp [validPost, hu, hc]
    simp only [createPost, hv, Bool.not_false, if_true]
    rfl
  · intro hok
    have hv : validPost url content = true := by
      unfold validPost
      rcases hok with h | h <;> simp [h]
    refine ⟨{ s with
      posts := s.posts ++
        [{ id := s.nextPostId, title := title, url := url
           content := content, points := 0, commentCount := 0
           createdAt := s.now, userId := user.id }]
      nextPostId := s.nextPostId + 1, now := s.now + 1 }, ?_, ?_⟩
    · simp [createPost, hv]
      rfl
    · unfold postById
      show firstWhere (fun p => p.id == s.nextPostId) (s.posts ++ _) = _
      rw [firstWhere_append_none ?_]
      · rw [firstWhere_cons]
        simp
      · intro x hx
        have := hwf.2.2.2.2.2.2.2.1 x hx
        simp only [beq_eq_false_iff_ne, ne_eq]
        omega

/-- Witness for C6 on the empty database: creation with neither url nor
content fails validation; creation with content `"hello"` only succeeds
and the inserted post has `points 0` and `commentCount 0`. -/
theorem c6_witness :
    Wf emptyDB ∧
    createPost emptyDB ⟨"u1", "alice"⟩ "t" none none =
      .error (.validation "URL or content is required") ∧
    ∃ s', createPost emptyDB ⟨"u1", "alice"⟩ "t" none (some "hello") =
        .ok (s', 1) ∧
      postById s' 1 = some
        { id := 1, title := "t", url := none, content := some "hello"
          points := 0, commentCount := 0, createdAt := 0, userId := "u1" } := by
  have h := c6_create_post_validation emptyDB ⟨"u1", "alice"⟩ "t" none
    (some "hello") (by decide)
  have h0 := c6_create_post_validation emptyDB ⟨"u1", "alice"⟩ "t" none
    none (by decide)
  exact ⟨by decide, h0.1 (by decide) (by decide), h.2 (Or.inr (by decide))⟩

/-- C9: listing the direct replies of a comment id that does not exist
does not fail: it returns a success envelope with empty data and
`totalPages = 0`; listing the top-level comments of a missing post id
fails NotFound. -/
theorem c9_missing_scope_listing (s : DB) (cid pid : Nat)
    (user : Option UserIdentity) (q : PageQuery) (includeChildren : Bool)
    (sorter : List CommentRow → List CommentRow)
    (hwf : Wf s)
    (hsort : ValidSorter (commentKey q.sortBy) q.order sorter) :
    (commentById s cid = none →
      listReplies sorter s cid user q =
        .ok { data := [], pagination := { page := q.page, totalPages := 0 } }) ∧
    (postById s pid = none →
      listPostComments sorter s pid user q includeChildren =
        .error (.notFound "Post not found")) := by
  constructor
  · intro hnone
    have hids := firstWhere_eq_none.mp hnone
    have hfe : s.comments.filter (fun c => c.parentCommentId == some cid)
        = [] := by
      rw [List.filter_eq_nil_iff]
      intro c hcmem
      have hinv := hwf.2.2.2.2.2.2.2.2.2.2 c hcmem
      simp only [beq_iff_eq]
      intro hpc
      rw [hpc] at hinv
      simp only [Option.all_some, List.any_eq_true, beq_iff_eq] at hinv
      obtain ⟨d, hd, hdid⟩ := hinv
      have := hids d hd
      simp only [beq_eq_false_iff_ne, ne_eq] at this
      exact this hdid
    have hsort0 : sorter [] = [] := (hsort []).1.eq_nil
    simp [listReplies, hfe, hsort0, countDistinctIds, jsCeilDiv_zero]
    rfl
  · intro hnone
    unfold listPostComments
    rw [show firstWhere (fun p => p.id == pid) s.posts = none from hnone]
    rfl

/-- Witness for C9: in `c4db` no comment has id 99 and no post has id
88; listing replies of 99 yields an empty page with `totalPages 0`,
listing comments of post 88 fails NotFound. -/
theorem c9_witness :
    Wf c4db ∧ commentById c4db 99 = none ∧ postById c4db 88 = none ∧
    listReplies (dbSort (commentKey SortBy.points) Order.desc) c4db 99 none
      {} = .ok { data := [], pagination := { page := 1, totalPages := 0 } } ∧
    listPostComments (dbSort (commentKey SortBy.points) Order.desc) c4db 88
      none {} false = .error (.notFound "Post not found") := by
  have h := c9_missing_scope_listing c4db 99 88 none {} false
    (dbSort (commentKey SortBy.points) Order.desc) (by decide)
    (dbSort_valid _ _)
  exact ⟨by decide, by decide, by decide, h.1 (by decide), h.2 (by decide)⟩

/-- C1: toggling a vote on an existing entity (comment or post) by a
logged-in user: with no vote record present the toggle inserts one,
moves the entity's points by exactly +1 and reports now-upvoted; with a
vote record present it deletes it, moves points by exactly −1 and
reports not-upvoted; in both cases a second toggle reports the opposite
state and returns the points and the vote-record existence to their
original values. -/
theorem c1_toggle_vote (s : DB) (user : UserIdentity) (hwf : Wf s) :
    (∀ id c, commentById s id = some c →
      (hasCommentVote s id user.id = false →
        ∃ s1 r1, toggleCommentUpvote s id user = .ok (s1, r1) ∧
          r1.commentUpvotes = [user.id] ∧
          (commentById s1 id).map (fun d => d.points) = some (c.points + 1) ∧
          hasCommentVote s1 id user.id = true ∧
          ∃ s2 r2, toggleCommentUpvote s1 id user = .ok (s2, r2) ∧
            r2.commentUpvotes = [] ∧
            (commentById s2 id).map (fun d => d.points) = some c.points ∧
            hasCommentVote s2 id user.id = false) ∧
      (hasCommentVote s id user.id = true →
        ∃ s1 r1, toggleCommentUpvote s id user = .ok (s1, r1) ∧
          r1.commentUpvotes = [] ∧
          (commentById s1 id).map (fun d => d.points) = some (c.points + -1) ∧
          hasCommentVote s1 id user.id = false ∧
          ∃ s2 r2, toggleCommentUpvote s1 id user = .ok (s2, r2) ∧
            r2.commentUpvotes = [user.id] ∧
            (commentById s2 id).map (fun d => d.points) = some c.points ∧
            hasCommentVote s2 id user.id = true)) ∧
    (∀ id p, postById s id = some p →
      (hasPostVote s id user.id = false →
        ∃ s1 r1, togglePostUpvote s id user = .ok (s1, r1) ∧
          r1.isUpvoted = true ∧
          (postById s1 id).map (fun d => d.points) = some (p.points + 1) ∧
          hasPostVote s1 id user.id = true ∧
          ∃ s2 r2, togglePostUpvote s1 id user = .ok (s2, r2) ∧
            r2.isUpvoted = false ∧
            (postById s2 id).map (fun d => d.points) = some p.points ∧
            hasPostVote s2 id user.id = false) ∧
      (hasPostVote s id user.id = true →
        ∃ s1 r1, togglePostUpvote s id user = .ok (s1, r1) ∧
          r1.isUpvoted = false ∧
          (postById s1 id).map (fun d => d.points) = some (p.points + -1) ∧
          hasPostVote s1 id user.id = false ∧
          ∃ s2 r2, togglePostUpvote s1 id user = .ok (s2, r2) ∧
            r2.isUpvoted = true ∧
            (postById s2 id).map (fun d => d.points) = some p.points ∧
            hasPostVote s2 id user.id = true)) := by
  obtain ⟨hWcn, hWpn, hWcun, hWpun, hWcuf, hWpuf, hWcif, hWpif, hWcup,
    hWpup, hWpar⟩ := hwf
  constructor
  · intro id c hcid
    constructor
    · intro hno
      have hnoAll : ∀ w ∈ s.commentUpvotes,
          ((fun w => w.commentId == id && w.userId == user.id) w) = false := by
        intro w hw
        have := List.any_eq_false.mp
          (show s.commentUpvotes.any
            (fun w => w.commentId == id && w.userId == user.id) = false
            from hno) w hw
        simpa using this
      have h1 := toggleCommentUpvote_absent s id user c hcid hno
      refine ⟨_, _, h1, rfl, ?_, ?_, ?_⟩
      · show (firstWhere (fun d => d.id == id)
            (updateWhere (fun d => d.id == id)
              (fun d => { d with points := d.points + 1 }) s.comments)).map
            (fun d => d.points) = some (c.points + 1)
        rw [commentById_update_points 1 id s hcid]
        rfl
      · show (s.commentUpvotes ++
            [({ id := s.nextCommentUpvoteId, commentId := id, userId := user.id } : CommentUpvoteRow)]).any
            (fun w => w.commentId == id && w.userId == user.id) = true
        simp [List.any_append]
      · have hfw : firstWhere
            (fun w => w.commentId == id && w.userId == user.id)
            (s.commentUpvotes ++
              [({ id := s.nextCommentUpvoteId, commentId := id, userId := user.id } : CommentUpvoteRow)]) =
            some ({ id := s.nextCommentUpvoteId, commentId := id, userId := user.id } : CommentUpvoteRow) := by
          rw [firstWhere_append_none hnoAll, firstWhere_cons]
          simp
        have h2 := toggleCommentUpvote_present
          (show DB from { s with
            comments := updateWhere (fun d => d.id == id)
              (fun d => { d with points := d.points + 1 }) s.comments
            commentUpvotes := s.commentUpvotes ++
              [({ id := s.nextCommentUpvoteId, commentId := id, userId := user.id } : CommentUpvoteRow)]
            nextCommentUpvoteId := s.nextCommentUpvoteId + 1 })
          id user { c with points := c.points + 1 }
          (commentById_update_points 1 id s hcid)
          { id := s.nextCommentUpvoteId, commentId := id, userId := user.id }
          hfw
        refine ⟨_, _, h2, rfl, ?_, ?_⟩
        · show (firstWhere (fun d => d.id == id)
              (updateWhere (fun d => d.id == id)
                (fun d => { d with points := d.points + -1 })
                (updateWhere (fun d => d.id == id)
                  (fun d => { d with points := d.points + 1 })
                  s.comments))).map
              (fun d => d.points) = some c.points
          rw [comment_points_cancel_up]
          rw [show firstWhere (fun d => d.id == id) s.comments = some c
            from hcid]
          rfl
        · show ((s.commentUpvotes ++
              [({ id := s.nextCommentUpvoteId, commentId := id, userId := user.id } : CommentUpvoteRow)]).filter
                (fun w => !(w.id == s.nextCommentUpvoteId))).any
              (fun w => w.commentId == id && w.userId == user.id) = false
          have hkeep : s.commentUpvotes.filter
              (fun w => !(w.id == s.nextCommentUpvoteId)) = s.commentUpvotes := by
            apply List.filter_eq_self.mpr
            intro w hw
            have := hWcuf w hw
            simp [Nat.ne_of_lt this]
          have hdrop : List.filter (fun w => !(w.id == s.nextCommentUpvoteId))
              [({ id := s.nextCommentUpvoteId, commentId := id, userId := user.id } :
                CommentUpvoteRow)] = [] := by simp
          rw [List.filter_append, hkeep, hdrop, List.append_nil]
          exact hno
    · intro hyes
      obtain ⟨v, hfw, hvmem, hvp⟩ := any_firstWhere
        (show s.commentUpvotes.any
          (fun w => w.commentId == id && w.userId == user.id) = true
          from hyes)
      have hvp2 : v.commentId = id ∧ v.userId = user.id := by
        simpa using hvp
      have h1 := toggleCommentUpvote_present s id user c hcid v hfw
      have hnodel : (s.commentUpvotes.filter
          (fun w => !(w.id == v.id))).any
          (fun w => w.commentId == id && w.userId == user.id) = false := by
        rw [List.any_eq_false]
        intro w hw hpw
        have hwmem := List.mem_of_mem_filter hw
        have hwne := List.of_mem_filter hw
        simp only [Bool.and_eq_true, beq_iff_eq] at hpw
        have hwv : w = v := by
          apply nodup_map_mem_inj hWcup hwmem hvmem
          show (w.commentId, w.userId) = (v.commentId, v.userId)
          rw [hpw.1, hpw.2, hvp2.1, hvp2.2]
        rw [hwv] at hwne
        simp at hwne
      refine ⟨_, _, h1, rfl, ?_, ?_, ?_⟩
      · show (firstWhere (fun d => d.id == id)
            (updateWhere (fun d => d.id == id)
              (fun d => { d with points := d.points + -1 }) s.comments)).map
            (fun d => d.points) = some (c.points + -1)
        rw [commentById_update_points (-1) id s hcid]
        rfl
      · exact hnodel
      · have h2 := toggleCommentUpvote_absent
          (show DB from { s with
            comments := updateWhere (fun d => d.id == id)
              (fun d => { d with points := d.points + -1 }) s.comments
            commentUpvotes := s.commentUpvotes.filter
              (fun w => !(w.id == v.id)) })
          id user { c with points := c.points + -1 }
          (commentById_update_points (-1) id s hcid) hnodel
        refine ⟨_, _, h2, rfl, ?_, ?_⟩
        · show (firstWhere (fun d => d.id == id)
              (updateWhere (fun d => d.id == id)
                (fun d => { d with points := d.points + 1 })
                (updateWhere (fun d => d.id == id)
                  (fun d => { d with points := d.points + -1 })
                  s.comments))).map
              (fun d => d.points) = some c.points
          rw [comment_points_cancel_down]
          rw [show firstWhere (fun d => d.id == id) s.comments = some c
            from hcid]
          rfl
        · show ((s.commentUpvotes.filter (fun w => !(w.id == v.id))) ++
              [({ id := s.nextCommentUpvoteId, commentId := id, userId := user.id } : CommentUpvoteRow)]).any
              (fun w => w.commentId == id && w.userId == user.id) = true
          simp [List.any_append]
  · intro id p hpid
    constructor
    · intro hno
      have hnoAll : ∀ w ∈ s.postUpvotes,
          ((fun w => w.postId == id && w.userId == user.id) w) = false := by
        intro w hw
        have := List.any_eq_false.mp
          (show s.postUpvotes.any
            (fun w => w.postId == id && w.userId == user.id) = false
            from hno) w hw
        simpa using this
      have h1 := togglePostUpvote_absent s id user p hpid hno
      refine ⟨_, _, h1, rfl, ?_, ?_, ?_⟩
      · show (firstWhere (fun d => d.id == id)
            (updateWhere (fun d => d.id == id)
              (fun d => { d with points := d.points + 1 }) s.posts)).map
            (fun d => d.points) = some (p.points + 1)
        rw [postById_update_points 1 id s hpid]
        rfl
      · show (s.postUpvotes ++
            [({ id := s.nextPostUpvoteId, postId := id, userId := user.id } : PostUpvoteRow)]).any
            (fun w => w.postId == id && w.userId == user.id) = true
        simp [List.any_append]
      · have hfw : firstWhere
            (fun w => w.postId == id && w.userId == user.id)
            (s.postUpvotes ++
              [({ id := s.nextPostUpvoteId, postId := id, userId := user.id } : PostUpvoteRow)]) =
            some ({ id := s.nextPostUpvoteId, postId := id, userId := user.id } : PostUpvoteRow) := by
          rw [firstWhere_append_none hnoAll, firstWhere_cons]
          simp
        have h2 := togglePostUpvote_present
          (show DB from { s with
            posts := updateWhere (fun d => d.id == id)
              (fun d => { d with points := d.points + 1 }) s.posts
            postUpvotes := s.postUpvotes ++
              [({ id := s.nextPostUpvoteId, postId := id, userId := user.id } : PostUpvoteRow)]
            nextPostUpvoteId := s.nextPostUpvoteId + 1 })
          id user { p with points := p.points + 1 }
          (postById_update_points 1 id s hpid)
          { id := s.nextPostUpvoteId, postId := id, userId := user.id }
          hfw
        refine ⟨_, _, h2, rfl, ?_, ?_⟩
        · show (firstWhere (fun d => d.id == id)
              (updateWhere (fun d => d.id == id)
                (fun d => { d with points := d.points + -1 })
                (updateWhere (fun d => d.id == id)
                  (fun d => { d with points := d.points + 1 })
                  s.posts))).map
              (fun d => d.points) = some p.points
          rw [post_points_cancel_up]
          rw [show firstWhere (fun d => d.id == id) s.posts = some p
            from hpid]
          rfl
        · show ((s.postUpvotes ++
              [({ id := s.nextPostUpvoteId, postId := id, userId := user.id } : PostUpvoteRow)]).filter
                (fun w => !(w.id == s.nextPostUpvoteId))).any
              (fun w => w.postId == id && w.userId == user.id) = false
          have hkeep : s.postUpvotes.filter
              (fun w => !(w.id == s.nextPostUpvoteId)) = s.postUpvotes := by
            apply List.filter_eq_self.mpr
            intro w hw
            have := hWpuf w hw
            simp [Nat.ne_of_lt this]
          have hdrop : List.filter (fun w => !(w.id == s.nextPostUpvoteId))
              [({ id := s.nextPostUpvoteId, postId := id, userId := user.id } :
                PostUpvoteRow)] = [] := by simp
          rw [List.filter_append, hkeep, hdrop, List.append_nil]
          exact hno
    · intro hyes
      obtain ⟨v, hfw, hvmem, hvp⟩ := any_firstWhere
        (show s.postUpvotes.any
          (fun w => w.postId == id && w.userId == user.id) = true
          from hyes)
      have hvp2 : v.postId = id ∧ v.userId = user.id := by
        simpa using hvp
      have h1 := togglePostUpvote_present s id user p hpid v hfw
      have hnodel : (s.postUpvotes.filter
          (fun w => !(w.id == v.id))).any
          (fun w => w.postId == id && w.userId == user.id) = false := by
        rw [List.any_eq_false]
        intro w hw hpw
        have hwmem := List.mem_of_mem_filter hw
        have hwne := List.of_mem_filter hw
        simp only [Bool.and_eq_true, beq_iff_eq] at hpw
        have hwv : w = v := by
          apply nodup_map_mem_inj hWpup hwmem hvmem
          show (w.postId, w.userId) = (v.postId, v.userId)
          rw [hpw.1, hpw.2, hvp2.1, hvp2.2]
        rw [hwv] at hwne
        simp at hwne
      refine ⟨_, _, h1, rfl, ?_, ?_, ?_⟩
      · show (firstWhere (fun d => d.id == id)
            (updateWhere (fun d => d.id == id)
              (fun d => { d with points := d.points + -1 }) s.posts)).map
            (fun d => d.points) = some (p.points + -1)
        rw [postById_update_points (-1) id s hpid]
        rfl
      · exact hnodel
      · have h2 := togglePostUpvote_absent
          (show DB from { s with
            posts := updateWhere (fun d => d.id == id)
              (fun d => { d with points := d.points + -1 }) s.posts
            postUpvotes := s.postUpvotes.filter
              (fun w => !(w.id == v.id)) })
          id user { p with points := p.points + -1 }
          (postById_update_points (-1) id s hpid) hnodel
        refine ⟨_, _, h2, rfl, ?_, ?_⟩
        · show (firstWhere (fun d => d.id == id)
              (updateWhere (fun d => d.id == id)
                (fun d => { d with points := d.points + 1 })
                (updateWhere (fun d => d.id == id)
                  (fun d => { d with points := d.points + -1 })
                  s.posts))).map
              (fun d => d.points) = some p.points
          rw [post_points_cancel_down]
          rw [show firstWhere (fun d => d.id == id) s.posts = some p
            from hpid]
          rfl
        · show ((s.postUpvotes.filter (fun w => !(w.id == v.id))) ++
              [({ id := s.nextPostUpvoteId, postId := id, userId := user.id } : PostUpvoteRow)]).any
              (fun w => w.postId == id && w.userId == user.id) = true
          simp [List.any_append]

/-- Witness state for C1: one post and one comment, no votes yet. -/
def c1db : DB :=
  { users := [⟨"u1", "alice"⟩]
    posts := [⟨1, "t", none, some "hi", 0, 0, 0, "u1"⟩]
    comments := [⟨1, "u1", 1, none, "root", 0, 0, 0, 0⟩]
    postUpvotes := []
    commentUpvotes := []
    nextPostId := 2
    nextCommentId := 2
    nextPostUpvoteId := 1
    nextCommentUpvoteId := 1
    now := 5 }

/-- Witness for C1 on `c1db`: user `"u1"` toggles comment 1 and post 1
from the no-vote state — upvote reported, points 0→1, vote row created;
a second toggle reports not-upvoted and restores points 0, no vote. -/
theorem c1_witness :
    Wf c1db ∧
    commentById c1db 1 = some ⟨1, "u1", 1, none, "root", 0, 0, 0, 0⟩ ∧
    hasCommentVote c1db 1 "u1" = false ∧
    postById c1db 1 = some ⟨1, "t", none, some "hi", 0, 0, 0, "u1"⟩ ∧
    hasPostVote c1db 1 "u1" = false ∧
    (∃ s1 r1, toggleCommentUpvote c1db 1 ⟨"u1", "alice"⟩ = .ok (s1, r1) ∧
      r1.commentUpvotes = ["u1"] ∧
      (commentById s1 1).map (fun d => d.points) = some 1 ∧
      hasCommentVote s1 1 "u1" = true ∧
      ∃ s2 r2, toggleCommentUpvote s1 1 ⟨"u1", "alice"⟩ = .ok (s2, r2) ∧
        r2.commentUpvotes = [] ∧
        (commentById s2 1).map (fun d => d.points) = some 0 ∧
        hasCommentVote s2 1 "u1" = false) ∧
    (∃ s1 r1, togglePostUpvote c1db 1 ⟨"u1", "alice"⟩ = .ok (s1, r1) ∧
      r1.isUpvoted = true ∧
      (postById s1 1).map (fun d => d.points) = some 1 ∧
      hasPostVote s1 1 "u1" = true ∧
      ∃ s2 r2, togglePostUpvote s1 1 ⟨"u1", "alice"⟩ = .ok (s2, r2) ∧
        r2.isUpvoted = false ∧
        (postById s2 1).map (fun d => d.points) = some 0 ∧
        hasPostVote s2 1 "u1" = false) := by
  have h := c1_toggle_vote c1db ⟨"u1", "alice"⟩ (by decide)
  have hc := (h.1 1 ⟨1, "u1", 1, none, "root", 0, 0, 0, 0⟩ (by decide)).1
    (by decide)
  have hp := (h.2 1 ⟨1, "t", none, some "hi", 0, 0, 0, "u1"⟩ (by decide)).1
    (by decide)
  exact ⟨by decide, by decide, by decide, by decide, by decide, hc, hp⟩

/-- Witness state for C5/C7: one post, one root comment with five
replies, and votes by user `"u1"` on post 1 and comment 1. -/
def c5db : DB :=
  { users := [⟨"u1", "alice"⟩]
    posts := [⟨1, "t", none, some "hi", 1, 6, 0, "u1"⟩]
    comments :=
      ⟨1, "u1", 1, none, "root", 0, 5, 1, 0⟩ ::
      (List.range 5).map (fun i =>
        ⟨i + 2, "u1", 1, some 1, "rep", 1, 0, 0, i + 1⟩)
    postUpvotes := [⟨1, 1, "u1"⟩]
    commentUpvotes := [⟨1, 1, "u1"⟩]
    nextPostId := 2
    nextCommentId := 7
    nextPostUpvoteId := 2
    nextCommentUpvoteId := 2
    now := 10 }

/-- C7: read operations with an anonymous viewer never fail because of
the missing identity and project no personal vote state: `isUpvoted` is
false on every returned post, and the viewer-vote projection on every
returned comment (and child comment) is empty, regardless of the votes
other users hold — their user ids are non-empty, so the `""` sentinel
join matches nothing. -/
theorem c7_anonymous_reads (s : DB) (q : PageQuery)
    (author site : Option String) (pid cid : Nat) (includeChildren : Bool)
    (csort : List CommentRow → List CommentRow)
    (psort : List PostRow → List PostRow)
    (hvotes : ∀ v ∈ s.commentUpvotes, v.userId ≠ "") :
    (∃ r, listPosts psort s none q author site = .ok r ∧
      ∀ x ∈ r.data, x.isUpvoted = false) ∧
    (∀ p, getPost s pid none = .ok p → p.isUpvoted = false) ∧
    ((postById s pid).isSome = true → ∃ p, getPost s pid none = .ok p) ∧
    (∃ r, listReplies csort s cid none q = .ok r ∧
      ∀ x ∈ r.data, x.commentUpVotes = []) ∧
    ((postById s pid).isSome = true →
      ∃ r, listPostComments csort s pid none q includeChildren = .ok r ∧
        ∀ x ∈ r.data, x.commentUpVotes = [] ∧
          ∀ y ∈ x.childComments, y.commentUpVotes = []) := by
  have hvv : ∀ i, viewerVotes s none i = [] := by
    intro i
    unfold viewerVotes
    rw [List.filter_eq_nil_iff.mpr ?_]
    · rfl
    · intro v hv
      simp [viewerId, hvotes v hv]
  refine ⟨⟨_, rfl, ?_⟩, ?_, ?_, ⟨_, rfl, ?_⟩, ?_⟩
  · intro x hx
    rw [List.mem_map] at hx
    obtain ⟨p0, _, rfl⟩ := hx
    rfl
  · intro p hp
    unfold getPost at hp
    cases hm : firstWhere (fun p => p.id == pid) s.posts with
    | none => rw [hm] at hp; exact absurd hp (by simp)
    | some p0 =>
      rw [hm] at hp
      simp only [pure, Except.pure, Except.ok.injEq] at hp
      subst hp
      rfl
  · intro hsome
    obtain ⟨p0, hm⟩ := Option.isSome_iff_exists.mp hsome
    unfold getPost
    rw [show firstWhere (fun p => p.id == pid) s.posts = some p0 from hm]
    exact ⟨_, rfl⟩
  · intro x hx
    rw [List.mem_map] at hx
    obtain ⟨c0, _, rfl⟩ := hx
    simp [projComment, hvv]
  · intro hsome
    obtain ⟨p0, hm⟩ := Option.isSome_iff_exists.mp hsome
    unfold listPostComments
    rw [show firstWhere (fun p => p.id == pid) s.posts = some p0 from hm]
    refine ⟨_, rfl, ?_⟩
    intro x hx
    rw [List.mem_map] at hx
    obtain ⟨c0, _, rfl⟩ := hx
    constructor
    · simp [projTopComment, hvv]
    · intro y hy
      simp only [projTopComment, List.mem_map] at hy
      obtain ⟨d0, _, rfl⟩ := hy
      simp [projComment, hvv]

/-- Witness for C7 on `c5db` (which holds votes by `"u1"` on post 1 and
comment 1): anonymous listings succeed with `isUpvoted = false` and
empty vote projections everywhere. -/
theorem c7_witness :
    (∀ v ∈ c5db.commentUpvotes, v.userId ≠ "") ∧
    (postById c5db 1).isSome = true ∧
    (∃ r, listPosts (dbSort (postKey SortBy.points) Order.desc) c5db none {}
        none none = .ok r ∧ ∀ x ∈ r.data, x.isUpvoted = false) ∧
    (∃ r, listReplies (dbSort (commentKey SortBy.points) Order.desc) c5db 1
        none {} = .ok r ∧ ∀ x ∈ r.data, x.commentUpVotes = []) ∧
    (∃ r, listPostComments (dbSort (commentKey SortBy.points) Order.desc)
        c5db 1 none {} true = .ok r ∧
      ∀ x ∈ r.data, x.commentUpVotes = [] ∧
        ∀ y ∈ x.childComments, y.commentUpVotes = []) := by
  have h := c7_anonymous_reads c5db {} none none 1 1 true
    (dbSort (commentKey SortBy.points) Order.desc)
    (dbSort (postKey SortBy.points) Order.desc)
    (by decide)
  exact ⟨by decide, by decide, h.1, h.2.2.2.1, h.2.2.2.2 (by decide)⟩

/-- C5: listing the top-level comments of an existing post with
`includeChildren = true` attaches to each returned top-level comment at
most 2 of its direct children (exactly `min 2 (number of children)`),
each child carrying the author join and the viewer-vote projection, in
the same sort key and order as the parent listing; with
`includeChildren = false` no children are attached. -/
theorem c5_children_cap (s : DB) (pid : Nat) (user : Option UserIdentity)
    (q : PageQuery) (sorter : List CommentRow → List CommentRow)
    (hsort : ValidSorter (commentKey q.sortBy) q.order sorter) :
    ((postById s pid).isSome = true →
      ∃ r, listPostComments sorter s pid user q true = .ok r ∧
        ∀ x ∈ r.data,
          x.childComments.length =
            min 2 (s.comments.filter
              (fun d => d.parentCommentId == some x.row.id)).length ∧
          sortedByKey (commentKey q.sortBy) q.order
            (x.childComments.map (·.row)) ∧
          ∀ y ∈ x.childComments, y.author = authorOf s y.row.userId ∧
            y.commentUpVotes = viewerVotes s user y.row.id) ∧
    ((postById s pid).isSome = true →
      ∃ r, listPostComments sorter s pid user q false = .ok r ∧
        ∀ x ∈ r.data, x.childComments = []) := by
  constructor
  · intro hsome
    obtain ⟨p0, hm⟩ := Option.isSome_iff_exists.mp hsome
    unfold listPostComments
    rw [show firstWhere (fun p => p.id == pid) s.posts = some p0 from hm]
    refine ⟨_, rfl, ?_⟩
    intro x hx
    rw [List.mem_map] at hx
    obtain ⟨c0, _, rfl⟩ := hx
    refine ⟨?_, ?_, ?_⟩
    · simp only [projTopComment]
      rw [List.length_map, List.length_take,
        (hsort (s.comments.filter
          (fun d => d.parentCommentId == some c0.id))).1.length_eq]
      rfl
    · simp only [projTopComment]
      rw [List.map_map]
      rw [show ((fun x : CommentProj => x.row) ∘ projComment s user) = id
        from funext fun c => rfl]
      rw [List.map_id]
      exact List.Pairwise.sublist (List.take_sublist _ _)
        (hsort (s.comments.filter
          (fun d => d.parentCommentId == some c0.id))).2
    · intro y hy
      simp only [projTopComment, List.mem_map] at hy
      obtain ⟨d0, _, rfl⟩ := hy
      exact ⟨rfl, rfl⟩
  · intro hsome
    obtain ⟨p0, hm⟩ := Option.isSome_iff_exists.mp hsome
    unfold listPostComments
    rw [show firstWhere (fun p => p.id == pid) s.posts = some p0 from hm]
    refine ⟨_, rfl, ?_⟩
    intro x hx
    rw [List.mem_map] at hx
    obtain ⟨c0, _, rfl⟩ := hx
    rfl

/-- Witness for C5 on `c5db`: the root comment has 5 replies; listing
with `includeChildren = true` returns exactly 2 children for it, with
`includeChildren = false` none. -/
theorem c5_witness :
    ValidSorter (commentKey SortBy.points) Order.desc
      (dbSort (commentKey SortBy.points) Order.desc) ∧
    (postById c5db 1).isSome = true ∧
    (∃ r, listPostComments (dbSort (commentKey SortBy.points) Order.desc)
        c5db 1 none {} true = .ok r ∧
      ∀ x ∈ r.data, x.childComments.length =
        min 2 (c5db.comments.filter
          (fun d => d.parentCommentId == some x.row.id)).length) ∧
    (∃ r, listPostComments (dbSort (commentKey SortBy.points) Order.desc)
        c5db 1 none {} false = .ok r ∧ ∀ x ∈ r.data, x.childComments = []) ∧
    min 2 (c5db.comments.filter
      (fun d => d.parentCommentId == some 1)).length = 2 := by
  have h := c5_children_cap c5db 1 none {}
    (dbSort (commentKey SortBy.points) Order.desc) (dbSort_valid _ _)
  obtain ⟨r1, hr1, hx1⟩ := h.1 (by decide)
  obtain ⟨r2, hr2, hx2⟩ := h.2 (by decide)
  exact ⟨dbSort_valid _ _, by decide,
    ⟨r1, hr1, fun x hx => (hx1 x hx).1⟩, ⟨r2, hr2, hx2⟩, by decide⟩

/-- C2: creating a comment under an existing parent comment (whose post
exists) succeeds with `depth = parent.depth + 1`, the parent's stored
`postId` (the reply route accepts no caller-supplied post id at all —
the parent is authoritative), increments the parent comment's and the
owning post's `commentCount` by exactly 1, and returns a comment with an
empty child list and an empty viewer-vote projection. -/
theorem c2_reply_creation (s : DB) (pid : Nat) (user : UserIdentity)
    (content : String) (hc : validComment content = true)
    (parent : CommentRow) (hparent : commentById s pid = some parent)
    (post : PostRow) (hpost : postById s parent.postId = some post) :
    ∃ s' r, createReply s pid user content = .ok (s', r) ∧
      r.depth = parent.depth + 1 ∧
      r.postId = parent.postId ∧
      r.parentCommentId = some parent.id ∧
      r.childComments = [] ∧
      r.commentUpVotes = [] ∧
      (commentById s' pid).map (fun d => d.commentCount) =
        some (parent.commentCount + 1) ∧
      (postById s' parent.postId).map (fun d => d.commentCount) =
        some (post.commentCount + 1) := by
  have hupc : firstWhere (fun d => d.id == pid)
      (updateWhere (fun d => d.id == pid)
        (fun d => { d with commentCount := d.commentCount + 1 })
        s.comments) =
      some { parent with commentCount := parent.commentCount + 1 } := by
    rw [firstWhere_updateWhere (fun d => d.id == pid)
      (fun d => { d with commentCount := d.commentCount + 1 })
      (fun x => rfl) s.comments]
    rw [show firstWhere (fun d => d.id == pid) s.comments = some parent
      from hparent]
    rfl
  have hupp : firstWhere (fun d => d.id == parent.postId)
      (updateWhere (fun d => d.id == parent.postId)
        (fun d => { d with commentCount := d.commentCount + 1 })
        s.posts) =
      some { post with commentCount := post.commentCount + 1 } := by
    rw [firstWhere_updateWhere (fun d => d.id == parent.postId)
      (fun d => { d with commentCount := d.commentCount + 1 })
      (fun x => rfl) s.posts]
    rw [show firstWhere (fun d => d.id == parent.postId) s.posts = some post
      from hpost]
    rfl
  refine ⟨(show DB from { s with
      comments := updateWhere (fun c => c.id == pid)
        (fun c => { c with commentCount := c.commentCount + 1 })
        s.comments ++
        [({ id := s.nextCommentId, userId := user.id, postId := parent.postId
            parentCommentId := some parent.id, content := content
            depth := parent.depth + 1, commentCount := 0, points := 0
            createdAt := s.now } : CommentRow)]
      posts := updateWhere (fun p => p.id == parent.postId)
        (fun p => { p with commentCount := p.commentCount + 1 }) s.posts
      nextCommentId := s.nextCommentId + 1
      now := s.now + 1 }),
    (show CreatedComment from {
      id := s.nextCommentId, userId := user.id, postId := parent.postId
      content := content, points := 0, depth := parent.depth + 1
      commentCount := 0, parentCommentId := some parent.id
      createdAt := s.now, childComments := [], commentUpVotes := []
      author := { username := user.username, id := user.id } }),
    ?_, rfl, rfl, rfl, rfl, rfl, ?_, ?_⟩
  · simp [createReply, hc,
      show firstWhere (fun c => c.id == pid) s.comments = some parent
        from hparent, hupc, hupp]
    rfl
  · show (firstWhere (fun d => d.id == pid)
        (updateWhere (fun d => d.id == pid)
          (fun d => { d with commentCount := d.commentCount + 1 })
          s.comments ++
          [({ id := s.nextCommentId, userId := user.id
              postId := parent.postId
              parentCommentId := some parent.id, content := content
              depth := parent.depth + 1, commentCount := 0, points := 0
              createdAt := s.now } : CommentRow)])).map
        (fun d => d.commentCount) = some (parent.commentCount + 1)
    rw [firstWhere_append_some hupc]
    rfl
  · show (firstWhere (fun d => d.id == parent.postId)
        (updateWhere (fun d => d.id == parent.postId)
          (fun d => { d with commentCount := d.commentCount + 1 })
          s.posts)).map
        (fun d => d.commentCount) = some (post.commentCount + 1)
    rw [hupp]
    rfl

/-- Witness for C2 on `c5db`: replying to comment 1 (depth 0, 5 direct
replies so far, `commentCount 5`) of post 1 (`commentCount 6`) yields a
comment of depth 1 on post 1 and bumps both counters by one. -/
theorem c2_witness :
    validComment "abc" = true ∧
    commentById c5db 1 = some ⟨1, "u1", 1, none, "root", 0, 5, 1, 0⟩ ∧
    postById c5db 1 = some ⟨1, "t", none, some "hi", 1, 6, 0, "u1"⟩ ∧
    ∃ s' r, createReply c5db 1 ⟨"u2", "bob"⟩ "abc" = .ok (s', r) ∧
      r.depth = 1 ∧
      r.postId = 1 ∧
      r.parentCommentId = some 1 ∧
      r.childComments = [] ∧
      r.commentUpVotes = [] ∧
      (commentById s' 1).map (fun d => d.commentCount) = some 6 ∧
      (postById s' 1).map (fun d => d.commentCount) = some 7 := by
  have h := c2_reply_creation c5db 1 ⟨"u2", "bob"⟩ "abc" (by decide)
    ⟨1, "u1", 1, none, "root", 0, 5, 1, 0⟩ (by decide)
    ⟨1, "t", none, some "hi", 1, 6, 0, "u1"⟩ (by decide)
  exact ⟨by decide, by decide, by decide, h⟩

/-- C3: creating a comment whose parent comment (or whose owning post)
does not exist fails with NotFound, and the transaction rolls back: the
resulting state is the unchanged pre-state, so no comment row is
inserted and no commentCount counter is touched. -/
theorem c3_comment_creation_all_or_nothing (s : DB) (cid pid : Nat)
    (user : UserIdentity) (content : String)
    (hc : validComment content = true) :
    (commentById s cid = none →
      createReply s cid user content = .error (.notFound "Comment not found") ∧
      applyDB s (createReply s cid user content) = s) ∧
    (∀ parent, commentById s cid = some parent →
      postById s parent.postId = none →
      createReply s cid user content = .error (.notFound "Comment not found") ∧
      applyDB s (createReply s cid user content) = s) ∧
    (postById s pid = none →
      createTopLevelComment s pid user content =
        .error (.notFound "Post not found") ∧
      applyDB s (createTopLevelComment s pid user content) = s) := by
  refine ⟨?_, ?_, ?_⟩
  · intro hnone
    have he : createReply s cid user content =
        .error (.notFound "Comment not found") := by
      unfold createReply
      rw [show firstWhere (fun c => c.id == cid) s.comments = none from hnone]
      simp [hc]
      rfl
    exact ⟨he, by rw [he]; rfl⟩
  · intro parent hparent hpost
    have he : createReply s cid user content =
        .error (.notFound "Comment not found") := by
      unfold createReply
      rw [show firstWhere (fun c => c.id == cid) s.comments = some parent
        from hparent]
      have hup : firstWhere (fun p => p.id == parent.postId)
          (updateWhere (fun p => p.id == parent.postId)
            (fun p => { p with commentCount := p.commentCount + 1 })
            s.posts) = none := by
        rw [firstWhere_updateWhere (fun p => p.id == parent.postId)
          (fun p => { p with commentCount := p.commentCount + 1 })
          (fun x => rfl) s.posts]
        rw [show firstWhere (fun p => p.id == parent.postId) s.posts = none
          from hpost]
        rfl
      simp [hc, hup]
      rfl
    exact ⟨he, by rw [he]; rfl⟩
  · intro hnone
    have he : createTopLevelComment s pid user content =
        .error (.notFound "Post not found") := by
      unfold createTopLevelComment
      have hup : firstWhere (fun p => p.id == pid)
          (updateWhere (fun p => p.id == pid)
            (fun p => { p with commentCount := p.commentCount + 1 })
            s.posts) = none := by
        rw [firstWhere_updateWhere (fun p => p.id == pid)
          (fun p => { p with commentCount := p.commentCount + 1 })
          (fun x => rfl) s.posts]
        rw [show firstWhere (fun p => p.id == pid) s.posts = none from hnone]
        rfl
      simp [hc, hup]
      rfl
    exact ⟨he, by rw [he]; rfl⟩

/-- Witness state for C8: a root comment whose two replies (ids 2 and 3,
inserted in that order) have equal points. -/
def c8db : DB :=
  { users := [⟨"u1", "alice"⟩]
    posts := [⟨1, "t", none, some "hi", 0, 3, 0, "u1"⟩]
    comments :=
      [⟨1, "u1", 1, none, "root", 0, 2, 0, 0⟩,
       ⟨2, "u1", 1, some 1, "aaa", 1, 0, 5, 1⟩,
       ⟨3, "u1", 1, some 1, "bbb", 1, 0, 5, 2⟩]
    postUpvotes := []
    commentUpvotes := []
    nextPostId := 2
    nextCommentId := 4
    nextPostUpvoteId := 1
    nextCommentUpvoteId := 1
    now := 10 }

/-- C8 counterexample: the listing queries emit `ORDER BY` on the sort
column with no secondary key, so the database may return rows with equal
keys in any relative order.  `dbSortRev` is such a permitted ordering
(it satisfies everything `ORDER BY points DESC` requires), yet under it
the replies of comment 1 — equal points, inserted as id 2 then id 3 —
come back as `[3, 2]`, not in insertion order as the claim demands. -/
theorem c8_counterexample :
    ValidSorter (commentKey SortBy.points) Order.desc
      (dbSortRev (commentKey SortBy.points) Order.desc) ∧
    Except.map (fun r => r.data.map (fun x => (x.row.id, x.row.points)))
      (listReplies (dbSortRev (commentKey SortBy.points) Order.desc) c8db 1
        none {}) = .ok [(3, 5), (2, 5)] ∧
    c8db.comments.map (fun c => c.id) = [1, 2, 3] :=
  ⟨dbSortRev_valid _ _, by decide, by decide⟩

/-- C8 (amended): for every comment listing (replies of a comment, or
top-level comments of a post) the returned page is sorted on the
requested key in the requested direction — non-increasing points for
`sortBy=points, order=desc`, likewise for `createdAt` and for ascending
order — but the relative order of comments with equal keys is
unspecified: the query has no secondary sort key, so insertion-order
tie-breaking is not guaranteed. -/
theorem c8_page_sorted (s : DB) (cid pid : Nat) (user : Option UserIdentity)
    (q : PageQuery) (includeChildren : Bool)
    (sorter : List CommentRow → List CommentRow)
    (hsort : ValidSorter (commentKey q.sortBy) q.order sorter) :
    (∀ r, listReplies sorter s cid user q = .ok r →
      sortedByKey (commentKey q.sortBy) q.order (r.data.map (·.row))) ∧
    (∀ r, listPostComments sorter s pid user q includeChildren = .ok r →
      sortedByKey (commentKey q.sortBy) q.order (r.data.map (·.row))) := by
  constructor
  · intro r hr
    simp only [listReplies, pure, Except.pure, Except.ok.injEq] at hr
    subst hr
    simp only
    rw [List.map_map]
    rw [show ((fun x : CommentProj => x.row) ∘ projComment s user) = id
      from funext fun c => rfl]
    rw [List.map_id]
    exact List.Pairwise.sublist
      ((List.take_sublist _ _).trans (List.drop_sublist _ _))
      (hsort (s.comments.filter (fun c => c.parentCommentId == some cid))).2
  · intro r hr
    unfold listPostComments at hr
    cases hm : firstWhere (fun p => p.id == pid) s.posts with
    | none => rw [hm] at hr; exact absurd hr (by simp)
    | some p0 =>
      rw [hm] at hr
      simp only [pure, Except.pure, Except.ok.injEq] at hr
      subst hr
      simp only
      rw [List.map_map]
      rw [show ((fun x : TopCommentProj => x.row) ∘
          projTopComment sorter s user includeChildren) = id
        from funext fun c => rfl]
      rw [List.map_id]
      exact List.Pairwise.sublist
        ((List.take_sublist _ _).trans (List.drop_sublist _ _))
        (hsort (s.comments.filter
          (fun c => c.postId == pid && c.parentCommentId.isNone))).2

/-- Witness for C8 on `c8db`: with the stable ordering `dbSort` the
returned reply page of comment 1 is sorted non-increasingly on points. -/
theorem c8_witness :
    ValidSorter (commentKey SortBy.points) Order.desc
      (dbSort (commentKey SortBy.points) Order.desc) ∧
    ∀ r, listReplies (dbSort (commentKey SortBy.points) Order.desc) c8db 1
        none {} = .ok r →
      sortedByKey (commentKey SortBy.points) Order.desc
        (r.data.map (·.row)) := by
  have h := c8_page_sorted c8db 1 1 none {} true
    (dbSort (commentKey SortBy.points) Order.desc) (dbSort_valid _ _)
  exact ⟨dbSort_valid _ _, h.1⟩

/-- Witness for C3 on `c4db`: no comment 99 and no post 88 exist; both
creation paths fail NotFound and leave the state unchanged. -/
theorem c3_witness :
    validComment "abc" = true ∧ commentById c4db 99 = none ∧
    postById c4db 88 = none ∧
    createReply c4db 99 ⟨"u1", "alice"⟩ "abc" =
      .error (.notFound "Comment not found") ∧
    applyDB c4db (createReply c4db 99 ⟨"u1", "alice"⟩ "abc") = c4db ∧
    createTopLevelComment c4db 88 ⟨"u1", "alice"⟩ "abc" =
      .error (.notFound "Post not found") ∧
    applyDB c4db (createTopLevelComment c4db 88 ⟨"u1", "alice"⟩ "abc") = c4db := by
  have h := c3_comment_creation_all_or_nothing c4db 99 88 ⟨"u1", "alice"⟩
    "abc" (by decide)
  obtain ⟨h1, _, h3⟩ := h
  have h1r := h1 (by decide)
  have h3r := h3 (by decide)
  exact ⟨by decide, by decide, by decide, h1r.1, h1r.2, h3r.1, h3r.2⟩

end HN
